import Mathlib

/-!
Verification of the conversation-state, tool-dispatch and stream-reduction
core of the `rag` command-line agent, as a shallow embedding in Lean.

Rust `Vec`, `HashMap` and `serde_json::Value` are modelled by `List`,
association lists and an inductive `JsonVal`; a Rust operation that can
panic (out-of-bounds `Vec::remove`, `expect`) is modelled by `Option` /
a dedicated outcome constructor, with `none` (resp. `panics`) standing for
the panic.
-/

namespace Rag

/-- Model of `serde_json::Value`.  The claims under verification only
exercise integral JSON numbers, so `num` carries an `Int` (the float
variants of `serde_json` are never produced by the embedded code). -/
inductive JsonVal where
  | null
  | bool (b : Bool)
  | num (n : Int)
  | str (s : String)
  | arr (elems : List JsonVal)
  | obj (fields : List (String × JsonVal))

/-- First field of a JSON object with the given key, `none` when the value
is not an object or has no such field (serde's behaviour for a missing
required field is an error, modelled as `none` by the parsers below). -/
def JsonVal.getField : JsonVal → String → Option JsonVal
  | .obj fields, key =>
    match fields.find? (fun f => f.1 = key) with
    | some f => some f.2
    | none => none
  | _, _ => none

/-! ### `src/manager.rs` — `ContextManager` (Conversation State) -/

/-- `Role` from `src/manager.rs` (serialized lowercase; only these three
variants exist in the source). -/
inductive Role where
  | user
  | assistant
  | system
deriving DecidableEq, Repr

/-- `ChatContext` from `src/manager.rs`: one stored message. -/
structure ChatContext where
  role : Role
  message : String
deriving DecidableEq, Repr

/-- `ContextManager` from `src/manager.rs`: the bounded message history. -/
structure ContextManager where
  contexts : List ChatContext
  max_size : Nat
deriving DecidableEq, Repr

/-- The system prompt `ContextManager::new` installs at index 0. -/
def systemPrompt : String :=
  "You are an expert in the field of the questions I asked and you gave comprehensive and insightful answers."

/-- The `ChatContext` that `ContextManager::new` pushes first. -/
def systemContext : ChatContext :=
  { role := Role.system, message := systemPrompt }

/-- `ContextManager::new(max_size)`. -/
def ContextManager.new (max_size : Nat) : ContextManager :=
  { contexts := [systemContext], max_size := max_size }

/-- `Vec::remove(i)`: removes and returns the element at `i`, panicking
when `i` is out of bounds.  The panic is modelled by `none`. -/
def vecRemove {α : Type} (l : List α) (i : Nat) : Option (List α) :=
  if i < l.length then some (l.eraseIdx i) else none

/-- `ContextManager::shift`: `self.contexts.remove(1); self.contexts.remove(1);`
— drops the two oldest non-system messages, or panics (`none`) when the
history is too short. -/
def ContextManager.shift (m : ContextManager) : Option ContextManager :=
  match vecRemove m.contexts 1 with
  | none => none
  | some c1 =>
    match vecRemove c1 1 with
    | none => none
    | some c2 => some { m with contexts := c2 }

/-- `ContextManager::add`: evicts via `shift` when
`self.contexts.len() - 1 == self.max_size` (the subtraction is on `usize`;
`contexts` is never empty on any path reachable from `new`, and Lean's
truncated `Nat` subtraction agrees with `usize` subtraction there), then
pushes the new message. -/
def ContextManager.add (m : ContextManager) (role : Role) (message : String) :
    Option ContextManager :=
  match (if m.contexts.length - 1 = m.max_size then m.shift else some m) with
  | none => none
  | some m1 =>
    some { m1 with contexts := m1.contexts ++ [{ role := role, message := message }] }

/-- Sequence of `add` calls; `none` as soon as one of them panics. -/
def ContextManager.addAll (m : ContextManager) : List (Role × String) → Option ContextManager
  | [] => some m
  | rm :: rest =>
    match m.add rm.1 rm.2 with
    | none => none
    | some m1 => m1.addAll rest

/-- The `i`-th user message of the test dialogue. -/
def userMsg (i : Nat) : Role × String := (Role.user, "u" ++ toString i)

/-- The `i`-th assistant message of the test dialogue. -/
def asstMsg (i : Nat) : Role × String := (Role.assistant, "a" ++ toString i)

/-- The stored form of the `i`-th user/assistant pair. -/
def pairContexts (i : Nat) : List ChatContext :=
  [{ role := Role.user, message := "u" ++ toString i },
   { role := Role.assistant, message := "a" ++ toString i }]

/-- The first `k` user/assistant pairs of the test dialogue, flattened in
arrival order. -/
def pairsUpTo (k : Nat) : List (Role × String) :=
  (List.range k).flatMap (fun i => [userMsg i, asstMsg i])

/-! ### `src/tools.rs` and `macros/src/lib.rs` — Tool Registry -/

/-- Result of `ToolRegistry::execute`.  `panics` models the
`.expect("Unknown Tool")` process abort, which is distinct from the
`anyhow::Result` error channel (`error`) that `?` propagates. -/
inductive ExecOutcome where
  | panics (msg : String)
  | error (e : String)
  | ok (v : JsonVal)

/-- A registered tool: its `ToolMetaData` name/description plus the
`execute` body.  The `parameters` JSON-schema (produced externally by
`schemars`) plays no role in dispatch and is not modelled. -/
structure RegisteredTool where
  name : String
  description : String
  exec : JsonVal → Except String JsonVal

/-- `i32` wrap-around (release-mode two's-complement semantics). -/
def wrap32 (n : Int) : Int := (n + 2 ^ 31) % 2 ^ 32 - 2 ^ 31

/-- The annotated function `add(a: i32, b: i32) -> i32 { a + b }`. -/
def add (a b : Int) : Int := wrap32 (a + b)

/-- `serde_json::from_value::<i32>`: an integral JSON number in `i32`
range, anything else is a deserialization error. -/
def parseI32 : JsonVal → Option Int
  | .num n => if -(2 ^ 31) ≤ n ∧ n < 2 ^ 31 then some n else none
  | _ => none

/-- The parameter struct `AddParameters { a: i32, b: i32 }` generated by
the `function_tool` macro from `add`'s signature. -/
structure AddParameters where
  a : Int
  b : Int

/-- serde deserialization of `AddParameters`: both fields are required. -/
def AddParameters.fromJson (v : JsonVal) : Option AddParameters :=
  match v.getField "a" with
  | none => none
  | some va =>
    match parseI32 va with
    | none => none
    | some a =>
      match v.getField "b" with
      | none => none
      | some vb =>
        match parseI32 vb with
        | none => none
        | some b => some { a := a, b := b }

/-- The `AddTool` generated by `#[function_tool(name = "Add", ...)]`:
deserializes `AddParameters`, calls `add`, and wraps the result as
`json!({"result": result})`. -/
def AddTool : RegisteredTool :=
  { name := "Add",
    description := "add a with b",
    exec := fun parameters =>
      match AddParameters.fromJson parameters with
      | none => Except.error "failed to deserialize AddParameters"
      | some params =>
        Except.ok (JsonVal.obj [("result", JsonVal.num (add params.a params.b))]) }

/-- `ToolRegistry.tools : HashMap<String, Box<dyn Tool>>`, modelled as an
association list with first-match lookup and in-place overwrite on
insert. -/
abbrev ToolRegistry := List (String × RegisteredTool)

/-- `HashMap::insert`: overwrite the entry with the same key, or append. -/
def registryInsert : ToolRegistry → String → RegisteredTool → ToolRegistry
  | [], k, t => [(k, t)]
  | (k1, t1) :: rest, k, t =>
    if k1 = k then (k, t) :: rest else (k1, t1) :: registryInsert rest k t

/-- `HashMap::get`. -/
def registryGet (reg : ToolRegistry) (name : String) : Option RegisteredTool :=
  (reg.find? (fun p => p.1 = name)).map (fun p => p.2)

/-- `ToolRegistry::register`: stores a tool under `metadata().name`. -/
def ToolRegistry.register (reg : ToolRegistry) (t : RegisteredTool) : ToolRegistry :=
  registryInsert reg t.name t

/-- `ToolRegistry::new()`: registers `AddTool` (the `ExecuteCommandTool`
registration is commented out in the source). -/
def ToolRegistry.new : ToolRegistry :=
  ToolRegistry.register [] AddTool

/-- `ToolRegistry::execute`: looks the tool up by exact name;
`.expect("Unknown Tool")` panics on a miss, and a tool error is
propagated by `?`. -/
def ToolRegistry.execute (reg : ToolRegistry) (tool_name : String) (parameters : JsonVal) :
    ExecOutcome :=
  match registryGet reg tool_name with
  | none => ExecOutcome.panics "Unknown Tool"
  | some t =>
    match t.exec parameters with
    | Except.error e => ExecOutcome.error e
    | Except.ok v => ExecOutcome.ok v

/-! ### `src/rq.rs` — response-chunk shapes and their deserialization -/

/-- `serde` string field. -/
def parseString : JsonVal → Option String
  | .str s => some s
  | _ => none

/-- `serde` `u64` field. -/
def parseU64 : JsonVal → Option Nat
  | .num n => if 0 ≤ n ∧ n < 2 ^ 64 then some n.toNat else none
  | _ => none

/-- `serde` `u32` field. -/
def parseU32 : JsonVal → Option Nat
  | .num n => if 0 ≤ n ∧ n < 2 ^ 32 then some n.toNat else none
  | _ => none

/-- A required field: missing field or failed payload parse is a
deserialization error. -/
def parseReqField {α : Type} (v : JsonVal) (key : String) (p : JsonVal → Option α) : Option α :=
  match v.getField key with
  | none => none
  | some w => p w

/-- An `Option<T>` field: missing or `null` deserializes to `none`; a
present payload must parse (outer `none` = deserialization failure). -/
def parseOptField {α : Type} (v : JsonVal) (key : String) (p : JsonVal → Option α) :
    Option (Option α) :=
  match v.getField key with
  | none => some none
  | some .null => some none
  | some w =>
    match p w with
    | none => none
    | some a => some (some a)

/-- A JSON array whose every element parses. -/
def parseArr {α : Type} (p : JsonVal → Option α) : JsonVal → Option (List α)
  | .arr elems => elems.mapM p
  | _ => none

/-- `async_openai::types::FinishReason`. -/
inductive FinishReason where
  | stop
  | length
  | toolCalls
  | contentFilter
  | functionCall
deriving DecidableEq, Repr

/-- serde deserialization of `FinishReason` (snake_case tags). -/
def FinishReason.fromJson : JsonVal → Option FinishReason
  | .str "stop" => some FinishReason.stop
  | .str "length" => some FinishReason.length
  | .str "tool_calls" => some FinishReason.toolCalls
  | .str "content_filter" => some FinishReason.contentFilter
  | .str "function_call" => some FinishReason.functionCall
  | _ => none

/-- `async_openai::types::FunctionCallStream`: the name/arguments fragment
of one streamed tool call. -/
structure FunctionCallStream where
  name : Option String
  arguments : Option String
deriving DecidableEq, Repr

/-- serde deserialization of `FunctionCallStream`. -/
def FunctionCallStream.fromJson (v : JsonVal) : Option FunctionCallStream :=
  match parseOptField v "name" parseString with
  | none => none
  | some name =>
    match parseOptField v "arguments" parseString with
    | none => none
    | some args => some { name := name, arguments := args }

/-- `async_openai::types::ChatCompletionMessageToolCallChunk`: `index` is
required; `id`, `type` (sole tag `"function"`, modelled as `Unit`) and
`function` are optional. -/
structure ToolCallChunk where
  index : Nat
  id : Option String
  type : Option Unit
  function : Option FunctionCallStream
deriving DecidableEq, Repr

/-- serde deserialization of the tool-call chunk. -/
def ToolCallChunk.fromJson (v : JsonVal) : Option ToolCallChunk :=
  match parseReqField v "index" parseU32 with
  | none => none
  | some index =>
    match parseOptField v "id" parseString with
    | none => none
    | some id =>
      match parseOptField v "type"
          (fun w => match w with
            | .str "function" => some ()
            | _ => none) with
      | none => none
      | some ty =>
        match parseOptField v "function" FunctionCallStream.fromJson with
        | none => none
        | some fn => some { index := index, id := id, type := ty, function := fn }

/-- `Delta` from `src/rq.rs`: `content` and `role` are required strings. -/
structure Delta where
  content : String
  reasoning_content : Option String
  role : String
  tool_calls : Option (List ToolCallChunk)
deriving DecidableEq, Repr

/-- serde deserialization of `Delta`. -/
def Delta.fromJson (v : JsonVal) : Option Delta :=
  match parseReqField v "content" parseString with
  | none => none
  | some content =>
    match parseOptField v "reasoning_content" parseString with
    | none => none
    | some rc =>
      match parseReqField v "role" parseString with
      | none => none
      | some role =>
        match parseOptField v "tool_calls" (parseArr ToolCallChunk.fromJson) with
        | none => none
        | some tcs =>
          some { content := content, reasoning_content := rc, role := role, tool_calls := tcs }

/-- `Choice` from `src/rq.rs`. -/
structure Choice where
  delta : Delta
  finish_reason : Option FinishReason
  index : Nat
deriving DecidableEq, Repr

/-- serde deserialization of `Choice`. -/
def Choice.fromJson (v : JsonVal) : Option Choice :=
  match parseReqField v "delta" Delta.fromJson with
  | none => none
  | some delta =>
    match parseOptField v "finish_reason" FinishReason.fromJson with
    | none => none
    | some fr =>
      match parseReqField v "index" parseU64 with
      | none => none
      | some index => some { delta := delta, finish_reason := fr, index := index }

/-- `CompletionTokensDetails` from `src/rq.rs`. -/
structure CompletionTokensDetails where
  reasoning_tokens : Nat
deriving DecidableEq, Repr

/-- serde deserialization of `CompletionTokensDetails`. -/
def CompletionTokensDetails.fromJson (v : JsonVal) : Option CompletionTokensDetails :=
  match parseReqField v "reasoning_tokens" parseU64 with
  | none => none
  | some rt => some { reasoning_tokens := rt }

/-- `Usage` from `src/rq.rs`. -/
structure Usage where
  completion_tokens : Nat
  prompt_tokens : Nat
  prompt_cache_hit_tokens : Option Nat
  prompt_cache_miss_tokens : Option Nat
  total_tokens : Nat
  completion_tokens_details : Option CompletionTokensDetails
deriving DecidableEq, Repr

/-- serde deserialization of `Usage`. -/
def Usage.fromJson (v : JsonVal) : Option Usage :=
  match parseReqField v "completion_tokens" parseU64 with
  | none => none
  | some ct =>
    match parseReqField v "prompt_tokens" parseU64 with
    | none => none
    | some pt =>
      match parseOptField v "prompt_cache_hit_tokens" parseU64 with
      | none => none
      | some hit =>
        match parseOptField v "prompt_cache_miss_tokens" parseU64 with
        | none => none
        | some miss =>
          match parseReqField v "total_tokens" parseU64 with
          | none => none
          | some tt =>
            match parseOptField v "completion_tokens_details"
                CompletionTokensDetails.fromJson with
            | none => none
            | some details =>
              some { completion_tokens := ct, prompt_tokens := pt,
                     prompt_cache_hit_tokens := hit, prompt_cache_miss_tokens := miss,
                     total_tokens := tt, completion_tokens_details := details }

/-- `RsChunkBody` from `src/rq.rs`: one deserialized stream delta. -/
structure RsChunkBody where
  id : String
  choices : List Choice
  created : Nat
  model : String
  system_fingerprint : Option String
  object : String
  usage : Option Usage
deriving DecidableEq, Repr

/-- `serde_json::from_value::<RsChunkBody>`: the deserialization the
stream loop applies to every `Ok` stream element. -/
def RsChunkBody.fromJson (v : JsonVal) : Option RsChunkBody :=
  match parseReqField v "id" parseString with
  | none => none
  | some id =>
    match parseReqField v "choices" (parseArr Choice.fromJson) with
    | none => none
    | some choices =>
      match parseReqField v "created" parseU64 with
      | none => none
      | some created =>
        match parseReqField v "model" parseString with
        | none => none
        | some model =>
          match parseOptField v "system_fingerprint" parseString with
          | none => none
          | some sf =>
            match parseReqField v "object" parseString with
            | none => none
            | some object =>
              match parseOptField v "usage" Usage.fromJson with
              | none => none
              | some usage =>
                some { id := id, choices := choices, created := created, model := model,
                       system_fingerprint := sf, object := object, usage := usage }

/-! ### `src/processor.rs` — `ToolsExecutor` (Tool-Call Accumulator and dispatch) -/

/-- `ToolsExecutor.tools_call : HashMap<u32, (String, String)>`, modelled
as an insertion-ordered association list `(index, (name, arguments))`
with first-match semantics. -/
abbrev ToolsCallMap := List (Nat × String × String)

/-- `HashMap::insert`: overwrite the entry with the same key, or append. -/
def mapInsert : ToolsCallMap → Nat → String × String → ToolsCallMap
  | [], k, v => [(k, v.1, v.2)]
  | (k1, v1) :: rest, k, v =>
    if k1 = k then (k, v.1, v.2) :: rest else (k1, v1) :: mapInsert rest k v

/-- `HashMap::entry(k).and_modify(f)`: apply `f` to the entry at `k` when
present, otherwise do nothing (the source never chains `or_insert`). -/
def mapModify (f : String × String → String × String) : ToolsCallMap → Nat → ToolsCallMap
  | [], _ => []
  | (k1, v1) :: rest, k =>
    if k1 = k then (k1, f v1) :: rest else (k1, v1) :: mapModify f rest k

/-- `HashMap` lookup. -/
def mapGet (m : ToolsCallMap) (k : Nat) : Option (String × String) :=
  (m.find? (fun e => e.1 = k)).map (fun e => e.2)

/-- The body of `ToolsExecutor::post_call`'s inner loop for one tool-call
fragment: a fragment bearing a `name` (re)initializes the entry at its
index with an empty arguments string; a fragment bearing `arguments`
appends them to the entry at its index, if one exists. -/
def processFragment (m : ToolsCallMap) (tool_call : ToolCallChunk) : ToolsCallMap :=
  match tool_call.function with
  | none => m
  | some f =>
    let m1 := match f.name with
      | some n => mapInsert m tool_call.index (n, "")
      | none => m
    match f.arguments with
    | some args => mapModify (fun p => (p.1, p.2 ++ args)) m1 tool_call.index
    | none => m1

/-- `ToolsExecutor::post_call`'s loop over the fragments of one delta. -/
def processFragments (m : ToolsCallMap) (frags : List ToolCallChunk) : ToolsCallMap :=
  frags.foldl processFragment m

/-- `ToolsExecutor::post_call` on one deserialized chunk: a chunk with no
choices or no `tool_calls` leaves the map unchanged. -/
def ToolsExecutor.post_call (m : ToolsCallMap) (chunk : RsChunkBody) : ToolsCallMap :=
  match chunk.choices with
  | [] => m
  | c :: _ =>
    match c.delta.tool_calls with
    | none => m
    | some tool_calls => processFragments m tool_calls

/-- How `ToolsExecutor::pre_next_input` ends for the dispatch loop:
`argumentParseError` models `serde_json::from_str(arguments)?` failing,
`toolError` a tool's `anyhow` error propagated by `?`, and `toolPanic`
the registry's `.expect("Unknown Tool")` abort.  Any of the three stops
the loop at the entry that raised it. -/
inductive DispatchErr where
  | argumentParseError
  | toolError (e : String)
  | toolPanic (msg : String)
deriving DecidableEq, Repr

/-- Outcome of the dispatch loop: the names for which
`ctx.tools.execute` was actually invoked, in iteration order, and the
error (if any) that ended the loop early. -/
structure DispatchResult where
  attempted : List String
  outcome : Option DispatchErr
deriving DecidableEq, Repr

/-- The `for (index, (tool_name, arguments)) in self.tools_call` loop of
`ToolsExecutor::pre_next_input`.  `parse` is `serde_json::from_str`, the
external JSON text parser, supplied as a parameter.  Each entry's
arguments are parsed (`?` on failure), then the registry executes the
tool (`?` on a tool error; process abort on an unknown name); the
tool-result message append and follow-up stream are rendering/transport
glue with no bearing on which entries get attempted. -/
def dispatchEntries (parse : String → Option JsonVal) (reg : ToolRegistry) :
    List (Nat × String × String) → DispatchResult
  | [] => { attempted := [], outcome := none }
  | (_, name, args) :: rest =>
    match parse args with
    | none => { attempted := [], outcome := some DispatchErr.argumentParseError }
    | some v =>
      match ToolRegistry.execute reg name v with
      | ExecOutcome.panics msg => { attempted := [name], outcome := some (DispatchErr.toolPanic msg) }
      | ExecOutcome.error e => { attempted := [name], outcome := some (DispatchErr.toolError e) }
      | ExecOutcome.ok _ =>
        let r := dispatchEntries parse reg rest
        { attempted := name :: r.attempted, outcome := r.outcome }

/-- `ToolsExecutor::pre_next_input`: no-op on an empty pending map;
otherwise dispatch every entry and clear the map — the `clear()` after
the loop is only reached when no `?` aborted. -/
def ToolsExecutor.pre_next_input (parse : String → Option JsonVal) (reg : ToolRegistry)
    (m : ToolsCallMap) : DispatchResult × ToolsCallMap :=
  if m.isEmpty then ({ attempted := [], outcome := none }, m)
  else
    let r := dispatchEntries parse reg m
    (r, if r.outcome = none then [] else m)

/-! ### `src/processor.rs` — `Processor::run`'s stream loop (Stream Reducer) -/

/-- One element of the response stream:
`Result<serde_json::Value, OpenAIError>`. -/
inductive StreamItem where
  | errItem (e : String)
  | okItem (v : JsonVal)

/-- The only error the stream loop itself raises: the `?` on
`serde_json::from_value::<RsChunkBody>`. -/
inductive TurnErr where
  | chunkParseError
deriving DecidableEq, Repr

/-- The per-turn mutable state the stream loop folds over: the `answer`
accumulator of `Processor::run`, the `ToolsExecutor` pending map and the
`TokenTracer` running total (the two stateful post-call hooks; the other
two hooks only render). -/
structure TurnAcc where
  answer : String
  tools_call : ToolsCallMap
  token_usage : Nat
deriving DecidableEq, Repr

/-- The initial per-turn state. -/
def initAcc : TurnAcc := { answer := "", tools_call := [], token_usage := 0 }

/-- Folding one deserialized chunk: `answer` grows by
`chunk.choices[0].delta.content` when `choices` is non-empty, and the
post-call hooks (`ToolsExecutor`, `TokenTracer`) update their state. -/
def stepChunk (acc : TurnAcc) (chunk : RsChunkBody) : TurnAcc :=
  { answer :=
      match chunk.choices with
      | [] => acc.answer
      | c :: _ => acc.answer ++ c.delta.content,
    tools_call := ToolsExecutor.post_call acc.tools_call chunk,
    token_usage :=
      match chunk.usage with
      | none => acc.token_usage
      | some u => acc.token_usage + u.total_tokens }

/-- The `while let Some(result) = stream.next()` loop of
`Processor::run`: an `Err` element is skipped by the
`if let Ok(chunk) = result` guard; an `Ok` element must deserialize into
`RsChunkBody` or the `?` aborts the turn. -/
def consumeStream (acc : TurnAcc) : List StreamItem → Except TurnErr TurnAcc
  | [] => Except.ok acc
  | StreamItem.errItem _ :: rest => consumeStream acc rest
  | StreamItem.okItem v :: rest =>
    match RsChunkBody.fromJson v with
    | none => Except.error TurnErr.chunkParseError
    | some chunk => consumeStream (stepChunk acc chunk) rest

/-- The tail of `Processor::run`'s turn body: consume the stream, then
append the accumulated answer to the `ContextManager` as an assistant
message. -/
def runStreamPhase (mgr : ContextManager) (items : List StreamItem) :
    Except TurnErr (String × Option ContextManager) :=
  match consumeStream initAcc items with
  | Except.error e => Except.error e
  | Except.ok acc => Except.ok (acc.answer, mgr.add Role.assistant acc.answer)

/-! ### `src/processor.rs` — `SystemCommand` (shell-substitution transform) -/

/-- Outcome of running one shell command token
(`std::process::Command::output` after the `shell_words` split), after
decoding of the captured bytes (UTF-8 with GBK fallback; the byte-level
decode never fails and is kept abstract).  `code` is
`output.status.code()`. -/
inductive CmdOutcome where
  | success (stdout : String)
  | failure (code : Option Int) (stderr : String)

/-- The literal regex source against which `SystemCommand::execute`
compares each matched text before substituting. -/
def systemPatternLiteral : String := "@`(?P<command>.*)`"

/-- The matched text `caps[0]` of a command token with captured command
`cmd`. -/
def tokenText (cmd : String) : String := "@`" ++ cmd ++ "`"

/-- An input string as the match decomposition that `replace_all` with
the pattern ``@`(?P<command>.*)` `` produces: literal stretches
interleaved with command tokens (the greedy `.*` fixes the
decomposition). -/
inductive InputSegment where
  | lit (s : String)
  | token (cmd : String)

/-- The warning `eprintln!` emits for a failing command. -/
def commandWarning (cmd : String) (code : Option Int) (stderr : String) : String :=
  "Warning: Command " ++ cmd ++ ", failed with exit code " ++
    toString (code.getD (-1)) ++ ": " ++ stderr

/-- The `replace_all` closure of `SystemCommand::execute` on one matched
token: the guard returns the matched text verbatim when it equals the
regex source; otherwise the command runs (`world` gives its outcome) and
is replaced by its stdout on success, while on failure the matched text
is kept and a warning is produced. -/
def substToken (world : String → CmdOutcome) (cmd : String) : String × List String :=
  if tokenText cmd = systemPatternLiteral then (tokenText cmd, [])
  else
    match world cmd with
    | CmdOutcome.success out => (out, [])
    | CmdOutcome.failure code stderr =>
      (tokenText cmd, [commandWarning cmd code stderr])

/-- `SystemCommand::execute` over the match decomposition: rebuild the
input with every token replaced per `substToken`, collecting the emitted
warnings left to right.  The function is total — the transform never
fails the turn. -/
def SystemCommand.execute (world : String → CmdOutcome) :
    List InputSegment → String × List String
  | [] => ("", [])
  | InputSegment.lit s :: rest =>
    let r := SystemCommand.execute world rest
    (s ++ r.1, r.2)
  | InputSegment.token cmd :: rest =>
    let t := substToken world cmd
    let r := SystemCommand.execute world rest
    (t.1 ++ r.1, t.2 ++ r.2)

/-! ### Specification-side descriptions used by the theorems -/

/-- The shape the history settles into: the system message followed by
the pairs numbered `s, s+1, ..., s+n-1` of the test dialogue. -/
def steadyContexts (s n : Nat) : List ChatContext :=
  systemContext :: (List.range' s n).flatMap pairContexts

/-- The invariant `ContextManager.new` establishes and `add` preserves:
the system message sits at index 0, and the number of non-system
messages never exceeds `max_size`. -/
def managerInv (m : ContextManager) : Prop :=
  m.contexts.head? = some systemContext ∧ m.contexts.length - 1 ≤ m.max_size

/-- The three fragments of the accumulator example: `{index:0, name:"Add"}`. -/
def exampleFrag1 : ToolCallChunk :=
  { index := 0, id := none, type := none, function := some { name := some "Add", arguments := none } }

/-- `{index:0, arguments:"{\"a\":"}` (braces written with escapes). -/
def exampleFrag2 : ToolCallChunk :=
  { index := 0, id := none, type := none,
    function := some { name := none, arguments := some "\x7b\"a\":" } }

/-- `{index:0, arguments:"1,\"b\":2}"}`. -/
def exampleFrag3 : ToolCallChunk :=
  { index := 0, id := none, type := none,
    function := some { name := none, arguments := some "1,\"b\":2\x7d" } }

/-- The parameters object `{a:3, b:5}`. -/
def addParamsJson : JsonVal := JsonVal.obj [("a", JsonVal.num 3), ("b", JsonVal.num 5)]

/-- A concrete behaviour of the external JSON text parser, used to
instantiate the dispatch theorems: the empty string is not valid JSON,
while the example arguments text parses to the `{a:1, b:2}` object. -/
def parseExample (s : String) : Option JsonVal :=
  if s = "\x7b\"a\":1,\"b\":2\x7d" then
    some (JsonVal.obj [("a", JsonVal.num 1), ("b", JsonVal.num 2)])
  else none

/-- A pending entry whose accumulated arguments (the empty string) do not
parse as JSON. -/
def badPending : Nat × String × String := (0, "Add", "")

/-- A pending entry that would dispatch fine on its own. -/
def goodPending : Nat × String × String := (1, "Add", "\x7b\"a\":1,\"b\":2\x7d")

/-- A world in which every command fails with exit code 1. -/
def failingWorld : String → CmdOutcome :=
  fun _ => CmdOutcome.failure (some 1) "boom"

end Rag

/-! ## Lemmas about the Conversation State dynamics -/

namespace Rag

theorem length_flatMap_pairContexts (s n : Nat) :
    ((List.range' s n).flatMap pairContexts).length = 2 * n := by
  induction n generalizing s with
  | zero => simp
  | succ n ih =>
    rw [List.range'_succ]
    simp [pairContexts, ih s.succ]
    omega

theorem addAll_cons (m : ContextManager) (x : Role × String) (rest : List (Role × String)) :
    m.addAll (x :: rest) = (m.add x.1 x.2).bind (fun m1 => m1.addAll rest) := by
  cases h : m.add x.1 x.2 <;> simp [ContextManager.addAll, h]

theorem addAll_append (m : ContextManager) (xs ys : List (Role × String)) :
    m.addAll (xs ++ ys) = (m.addAll xs).bind (fun m1 => m1.addAll ys) := by
  induction xs generalizing m with
  | nil => rfl
  | cons x xs ih =>
    rw [List.cons_append, addAll_cons, addAll_cons]
    cases m.add x.1 x.2 with
    | none => rfl
    | some m1 => exact ih m1

theorem pairsUpTo_succ (k : Nat) :
    pairsUpTo (k + 1) = pairsUpTo k ++ [userMsg k, asstMsg k] := by
  simp [pairsUpTo, List.range_succ]

theorem userMsg_def (i : Nat) : userMsg i = (Role.user, "u" ++ toString i) := rfl

theorem asstMsg_def (i : Nat) : asstMsg i = (Role.assistant, "a" ++ toString i) := rfl

/-- An `add` below the trigger threshold is a plain push. -/
theorem add_no_trigger (ctxs : List ChatContext) (N : Nat) (r : Role) (s : String)
    (h : ¬ ctxs.length - 1 = N) :
    ContextManager.add { contexts := ctxs, max_size := N } r s =
      some { contexts := ctxs ++ [{ role := r, message := s }], max_size := N } := by
  simp [ContextManager.add, h]

/-- An `add` at the trigger threshold on a history of length at least 3
removes exactly the messages at indices 1 and 2 (never index 0) and then
pushes the new message. -/
theorem add_trigger (c0 c1 c2 : ChatContext) (rest : List ChatContext) (N : Nat)
    (r : Role) (s : String)
    (h : (c0 :: c1 :: c2 :: rest).length - 1 = N) :
    ContextManager.add { contexts := c0 :: c1 :: c2 :: rest, max_size := N } r s =
      some { contexts := c0 :: rest ++ [{ role := r, message := s }], max_size := N } := by
  have hN : rest.length + 1 + 1 = N := by simp at h; omega
  have h0 : 0 < N := by omega
  have h1 : 1 < N := by omega
  simp [ContextManager.add, ContextManager.shift, vecRemove, List.eraseIdx, hN, h0, h1]

/-- The exact trajectory of an even-capacity manager fed the test
dialogue: after `k` pairs the history is the system message followed by
the most recent `min k m` pairs, the older ones having been evicted
pair-wise in FIFO order. -/
theorem addAll_pairs_steady (m : Nat) (hm : 1 ≤ m) (k : Nat) :
    ContextManager.addAll (ContextManager.new (2 * m)) (pairsUpTo k) =
      some { contexts := steadyContexts (k - min k m) (min k m), max_size := 2 * m } := by
  induction k with
  | zero =>
    simp [pairsUpTo, ContextManager.addAll, ContextManager.new, steadyContexts]
  | succ k ih =>
    rw [pairsUpTo_succ, addAll_append, ih, Option.some_bind]
    have hL : ((List.range' (k - min k m) (min k m)).flatMap pairContexts).length
        = 2 * min k m := length_flatMap_pairContexts _ _
    by_cases hk : k < m
    · -- below capacity: both adds are plain pushes
      have hmin : min k m = k := by omega
      have hmin1 : min (k + 1) m = k + 1 := by omega
      rw [hmin] at hL ⊢
      rw [Nat.sub_self] at hL
      rw [hmin1]
      rw [show k - k = 0 by omega, show k + 1 - (k + 1) = 0 by omega]
      rw [addAll_cons, userMsg_def]
      rw [add_no_trigger (steadyContexts 0 k) (2 * m) Role.user ("u" ++ toString k)
        (by simp [steadyContexts, hL]; omega), Option.some_bind]
      rw [addAll_cons, asstMsg_def]
      rw [add_no_trigger _ (2 * m) Role.assistant ("a" ++ toString k)
        (by simp [steadyContexts, hL]; omega), Option.some_bind]
      rw [show ContextManager.addAll _ [] = some _ from rfl]
      simp only [steadyContexts, List.range'_1_concat, Nat.zero_add, List.flatMap_append]
      simp [pairContexts]
    · -- at capacity: the first add evicts the oldest retained pair
      have hkm : m ≤ k := by omega
      have hmin : min k m = m := by omega
      have hmin1 : min (k + 1) m = m := by omega
      rw [hmin] at hL ⊢
      rw [hmin1]
      obtain ⟨m1, rfl⟩ : ∃ m1, m = m1 + 1 := ⟨m - 1, by omega⟩
      have hsteady : steadyContexts (k - (m1 + 1)) (m1 + 1) =
          systemContext ::
            { role := Role.user, message := "u" ++ toString (k - (m1 + 1)) } ::
            { role := Role.assistant, message := "a" ++ toString (k - (m1 + 1)) } ::
            (List.range' (k - (m1 + 1) + 1) m1).flatMap pairContexts := by
        rw [steadyContexts, List.range'_succ]
        simp [pairContexts]
      have hrest : ((List.range' (k - (m1 + 1) + 1) m1).flatMap pairContexts).length = 2 * m1 :=
        length_flatMap_pairContexts _ _
      rw [hsteady, addAll_cons, userMsg_def]
      rw [add_trigger _ _ _ _ (2 * (m1 + 1)) Role.user ("u" ++ toString k)
        (by simp [hrest]; omega), Option.some_bind]
      rw [addAll_cons, asstMsg_def]
      rw [show (systemContext :: (List.range' (k - (m1 + 1) + 1) m1).flatMap pairContexts ++
            [{ role := Role.user, message := "u" ++ toString k }] : List ChatContext) =
          systemContext :: ((List.range' (k - (m1 + 1) + 1) m1).flatMap pairContexts ++
            [{ role := Role.user, message := "u" ++ toString k }]) from rfl]
      rw [add_no_trigger _ (2 * (m1 + 1)) Role.assistant ("a" ++ toString k)
        (by simp [hrest]; omega), Option.some_bind]
      rw [show ContextManager.addAll _ [] = some _ from rfl]
      have hidx : k - (m1 + 1) + 1 = k + 1 - (m1 + 1) := by omega
      have hconcat : List.range' (k + 1 - (m1 + 1)) (m1 + 1) =
          List.range' (k + 1 - (m1 + 1)) m1 ++ [k + 1 - (m1 + 1) + m1] := List.range'_1_concat _ _
      have hlast : k + 1 - (m1 + 1) + m1 = k := by omega
      rw [steadyContexts, hconcat, hlast, ← hidx]
      simp [pairContexts]

end Rag

/-! ## Invariant lemmas for `ContextManager` -/

namespace Rag

/-- `ContextManager.new` establishes the invariant. -/
theorem new_managerInv (N : Nat) : managerInv (ContextManager.new N) := by
  simp [managerInv, ContextManager.new]

/-- One successful `add` preserves the invariant and the capacity. -/
theorem add_managerInv {m m1 : ContextManager} {r : Role} {s : String}
    (h : managerInv m) (hadd : m.add r s = some m1) :
    managerInv m1 ∧ m1.max_size = m.max_size := by
  obtain ⟨ctxs, N⟩ := m
  obtain ⟨hhead, hlen⟩ := h
  simp only [managerInv] at hhead hlen ⊢
  match ctxs, hhead with
  | c :: tl, hhead =>
    have hc0 : c = systemContext := by simp at hhead; exact hhead
    subst hc0
    by_cases hc : (systemContext :: tl : List ChatContext).length - 1 = N
    · -- eviction path: the shift must have succeeded
      match tl with
      | [] =>
        have hN : N = 0 := by simp at hc; omega
        subst hN
        simp [ContextManager.add, ContextManager.shift, vecRemove] at hadd
      | [t1] =>
        have hN : N = 1 := by simp at hc; omega
        subst hN
        simp [ContextManager.add, ContextManager.shift, vecRemove, List.eraseIdx] at hadd
      | t1 :: t2 :: tl2 =>
        rw [add_trigger systemContext t1 t2 tl2 N r s hc] at hadd
        simp at hadd
        subst hadd
        simp at hc ⊢
        omega
    · -- plain push
      rw [add_no_trigger (systemContext :: tl) N r s hc] at hadd
      simp at hadd
      subst hadd
      simp at hc hlen ⊢
      omega

/-- With capacity at least 2 the invariant makes `add` total. -/
theorem add_total {m : ContextManager} (h : managerInv m) (h2 : 2 ≤ m.max_size)
    (r : Role) (s : String) : ∃ m1, m.add r s = some m1 := by
  obtain ⟨ctxs, N⟩ := m
  obtain ⟨hhead, hlen⟩ := h
  simp only [managerInv] at hhead hlen
  simp only at h2
  match ctxs, hhead with
  | c :: tl, hhead =>
    have hc0 : c = systemContext := by simp at hhead; exact hhead
    subst hc0
    by_cases hc : (systemContext :: tl : List ChatContext).length - 1 = N
    · match tl with
      | [] => simp at hc; omega
      | [t1] => simp at hc; omega
      | t1 :: t2 :: tl2 =>
        exact ⟨_, add_trigger systemContext t1 t2 tl2 N r s hc⟩
    · exact ⟨_, add_no_trigger (systemContext :: tl) N r s hc⟩

/-- A successful run of `addAll` preserves the invariant. -/
theorem addAll_managerInv {msgs : List (Role × String)} :
    ∀ {m st : ContextManager}, managerInv m → m.addAll msgs = some st → managerInv st := by
  induction msgs with
  | nil =>
    intro m st h hall
    rw [ContextManager.addAll] at hall
    simp at hall
    rwa [← hall]
  | cons x rest ih =>
    intro m st h hall
    rw [addAll_cons] at hall
    cases hadd : m.add x.1 x.2 with
    | none => rw [hadd] at hall; simp at hall
    | some m1 =>
      rw [hadd] at hall
      simp at hall
      exact ih (add_managerInv h hadd).1 hall

/-- With capacity at least 2, `addAll` never panics. -/
theorem addAll_total {msgs : List (Role × String)} :
    ∀ {m : ContextManager}, managerInv m → 2 ≤ m.max_size → ∃ st, m.addAll msgs = some st := by
  induction msgs with
  | nil => intro m h h2; exact ⟨m, rfl⟩
  | cons x rest ih =>
    intro m h h2
    obtain ⟨m1, hadd⟩ := add_total h h2 x.1 x.2
    obtain ⟨hinv1, hmax1⟩ := add_managerInv h hadd
    obtain ⟨st, hall⟩ := ih hinv1 (by rw [hmax1]; exact h2)
    exact ⟨st, by rw [addAll_cons, hadd, Option.some_bind]; exact hall⟩

end Rag

/-! ## Claim theorems: Conversation State (C1, C2, C3) -/

namespace Rag

/-- `shift` never changes the capacity. -/
theorem shift_max_size {m m2 : ContextManager} (h : m.shift = some m2) :
    m2.max_size = m.max_size := by
  rw [ContextManager.shift] at h
  split at h
  · exact absurd h (by simp)
  · split at h
    · exact absurd h (by simp)
    · rw [← Option.some_inj.mp h]

/-- `add` never changes the capacity. -/
theorem add_max_size {m m1 : ContextManager} {r : Role} {s : String}
    (h : m.add r s = some m1) : m1.max_size = m.max_size := by
  rw [ContextManager.add] at h
  split at h
  · exact absurd h (by simp)
  · rename_i m2 hm2
    rw [← Option.some_inj.mp h]
    show m2.max_size = m.max_size
    by_cases hc : m.contexts.length - 1 = m.max_size
    · rw [if_pos hc] at hm2
      exact shift_max_size hm2
    · rw [if_neg hc] at hm2
      rw [← Option.some_inj.mp hm2]

/-- Needed to transfer the invariant's bound back to the construction
capacity: `addAll` never changes `max_size`. -/
theorem addAll_max_size {msgs : List (Role × String)} :
    ∀ {m st : ContextManager}, m.addAll msgs = some st → st.max_size = m.max_size := by
  induction msgs with
  | nil =>
    intro m st hall
    rw [ContextManager.addAll] at hall
    simp at hall
    rw [← hall]
  | cons x rest ih =>
    intro m st hall
    rw [addAll_cons] at hall
    cases hadd : m.add x.1 x.2 with
    | none => rw [hadd] at hall; simp at hall
    | some m1 =>
      rw [hadd] at hall
      simp at hall
      rw [ih hall, add_max_size hadd]

/-- C1 (amended): for every even capacity `N = 2*m` with `m ≥ 1`, feeding
`N+1` user/assistant pairs to a fresh Conversation State leaves exactly
`N` non-system entries, with the system message of construction still at
index 0, and the surviving entries are exactly the most recent `m` pairs
— the older pairs were evicted pair-wise in FIFO order.  (As stated over
all capacities the claim fails: odd capacities retain `N-1` entries, and
capacities 0 and 1 panic.) -/
theorem contextManager_even_capacity_fifo (m : Nat) (hm : 1 ≤ m) :
    ContextManager.addAll (ContextManager.new (2 * m)) (pairsUpTo (2 * m + 1)) =
      some { contexts := steadyContexts (m + 1) m, max_size := 2 * m } ∧
    (steadyContexts (m + 1) m).length - 1 = 2 * m ∧
    (steadyContexts (m + 1) m).head? = some systemContext := by
  refine ⟨?_, ?_, rfl⟩
  · have h := addAll_pairs_steady m hm (2 * m + 1)
    rw [show min (2 * m + 1) m = m by omega, show 2 * m + 1 - m = m + 1 by omega] at h
    exact h
  · rw [show steadyContexts (m + 1) m =
        systemContext :: (List.range' (m + 1) m).flatMap pairContexts from rfl,
      List.length_cons, length_flatMap_pairContexts]
    omega

/-- C1, counterexample: with capacity `N = 3`, appending `N+1 = 4` pairs
leaves 2 non-system entries, not the 3 the claim requires. -/
theorem contextManager_odd_capacity_counterexample :
    (ContextManager.addAll (ContextManager.new 3) (pairsUpTo (3 + 1))).map
        (fun st => st.contexts.length - 1) = some 2 ∧ (2 : Nat) ≠ 3 := by
  decide

/-- C1, witness at `m = 2` (capacity 4, 5 pairs appended). -/
theorem contextManager_even_capacity_fifo_witness :
    1 ≤ 2 ∧
    (ContextManager.addAll (ContextManager.new (2 * 2)) (pairsUpTo (2 * 2 + 1)) =
        some { contexts := steadyContexts (2 + 1) 2, max_size := 2 * 2 } ∧
      (steadyContexts (2 + 1) 2).length - 1 = 2 * 2 ∧
      (steadyContexts (2 + 1) 2).head? = some systemContext) :=
  ⟨by decide, contextManager_even_capacity_fifo 2 (by decide)⟩

/-- C2 (amended): starting from a fresh Conversation State of capacity
`N`, after every successful sequence of `add` calls the number of
non-system messages is at most `N` (the total length may reach `N+1`,
system message included, so the claim's bound on the total fails), the
system message is still at index 0, and whenever an `add` fires the
eviction it removes exactly the two oldest non-system messages — indices
1 and 2, never index 0 — as one unit before pushing. -/
theorem contextManager_bound_and_atomic_eviction :
    (∀ (N : Nat) (msgs : List (Role × String)) (st : ContextManager),
        ContextManager.addAll (ContextManager.new N) msgs = some st →
        st.contexts.length - 1 ≤ N ∧ st.contexts.head? = some systemContext) ∧
    (∀ (c0 c1 c2 : ChatContext) (rest : List ChatContext) (N : Nat) (r : Role) (s : String),
        (c0 :: c1 :: c2 :: rest).length - 1 = N →
        ContextManager.add { contexts := c0 :: c1 :: c2 :: rest, max_size := N } r s =
          some { contexts := c0 :: rest ++ [{ role := r, message := s }], max_size := N }) := by
  constructor
  · intro N msgs st hall
    have hinv := addAll_managerInv (new_managerInv N) hall
    have hmax := addAll_max_size hall
    obtain ⟨hhead, hlen⟩ := hinv
    rw [hmax] at hlen
    exact ⟨hlen, hhead⟩
  · intro c0 c1 c2 rest N r s h
    exact add_trigger c0 c1 c2 rest N r s h

/-- C2, counterexample: with capacity 2, after one pair the history holds
3 messages (system + pair) — the claimed bound "total number of stored
messages at most N" is already violated. -/
theorem contextManager_total_bound_counterexample :
    (ContextManager.addAll (ContextManager.new 2) (pairsUpTo 1)).map
        (fun st => st.contexts.length) = some 3 ∧ ¬ (3 : Nat) ≤ 2 := by
  decide

/-- C2, witness: the bound at capacity 2 after one pair, and one concrete
atomic eviction. -/
theorem contextManager_bound_and_atomic_eviction_witness :
    (ContextManager.addAll (ContextManager.new 2) (pairsUpTo 1) =
        some { contexts := [systemContext,
          { role := Role.user, message := "u0" },
          { role := Role.assistant, message := "a0" }], max_size := 2 } ∧
      (([systemContext,
          { role := Role.user, message := "u0" },
          { role := Role.assistant, message := "a0" }] : List ChatContext).length - 1 ≤ 2 ∧
        ([systemContext,
          { role := Role.user, message := "u0" },
          { role := Role.assistant, message := "a0" }] : List ChatContext).head? =
            some systemContext)) ∧
    (ContextManager.add { contexts := [systemContext,
          { role := Role.user, message := "u0" },
          { role := Role.assistant, message := "a0" }], max_size := 2 } Role.user "u1" =
        some { contexts := [systemContext, { role := Role.user, message := "u1" }],
               max_size := 2 }) :=
  ⟨⟨by decide,
    contextManager_bound_and_atomic_eviction.1 2 (pairsUpTo 1)
      { contexts := [systemContext,
          { role := Role.user, message := "u0" },
          { role := Role.assistant, message := "a0" }], max_size := 2 } (by decide)⟩,
   contextManager_bound_and_atomic_eviction.2 systemContext
     { role := Role.user, message := "u0" }
     { role := Role.assistant, message := "a0" } [] 2 Role.user "u1" (by decide)⟩

/-- C3 (amended): for every capacity `N ≥ 2` and every message sequence,
every `add` on a freshly constructed manager returns normally — the
eviction never removes from a history that is too short.  (As stated the
claim fails: capacities 0 and 1 panic inside `shift`, see the
counterexample.) -/
theorem contextManager_add_total (N : Nat) (msgs : List (Role × String)) (h2 : 2 ≤ N) :
    ∃ st, ContextManager.addAll (ContextManager.new N) msgs = some st :=
  addAll_total (new_managerInv N) h2

/-- C3, counterexample: with capacity 0 the very first `add` panics
(`Vec::remove(1)` on the one-element history), and with capacity 1 the
second `add` panics — `none` is the model of the panic. -/
theorem contextManager_add_panics_counterexample :
    ContextManager.addAll (ContextManager.new 0) [(Role.user, "hi")] = none ∧
    ContextManager.addAll (ContextManager.new 1) (pairsUpTo 1) = none := by
  decide

/-- C3, witness at capacity 2 with three pairs. -/
theorem contextManager_add_total_witness :
    2 ≤ 2 ∧ ∃ st, ContextManager.addAll (ContextManager.new 2) (pairsUpTo 3) = some st :=
  ⟨by decide, contextManager_add_total 2 (pairsUpTo 3) (by decide)⟩

end Rag

namespace Rag

theorem mapGet_mapModify (f : String × String → String × String) :
    ∀ (m : ToolsCallMap) (k : Nat) (p : String × String),
      mapGet m k = some p → mapGet (mapModify f m k) k = some (f p) := by
  intro m
  induction m with
  | nil => intro k p h; simp [mapGet] at h
  | cons e rest ih =>
    intro k p h
    obtain ⟨k1, v1⟩ := e
    by_cases hk : k1 = k
    · subst hk
      rw [show mapGet ((k1, v1) :: rest) k1 = some v1 from by
        simp [mapGet, List.find?]] at h
      have hv : v1 = p := by injection h
      subst hv
      simp [mapModify, mapGet, List.find?]
    · rw [show mapGet ((k1, v1) :: rest) k = mapGet rest k from by
        simp [mapGet, List.find?, hk]] at h
      rw [show mapModify f ((k1, v1) :: rest) k = (k1, v1) :: mapModify f rest k from by
        simp [mapModify, hk]]
      rw [show mapGet ((k1, v1) :: mapModify f rest k) k = mapGet (mapModify f rest k) k from by
        simp [mapGet, List.find?, hk]]
      exact ih k p h

/-- C4: feeding the Tool-Call Accumulator the fragments
`{index:0, name:"Add"}`, `{index:0, arguments:"\x7b\"a\":"}`,
`{index:0, arguments:"1,\"b\":2\x7d"}` in that order yields exactly one
pending call at index 0 with name `Add` and the concatenated arguments
text; and in general every arguments-bearing fragment for a known index
appends its fragment verbatim to that index's accumulating string. -/
theorem accumulator_appends_fragments :
    (processFragments [] [exampleFrag1, exampleFrag2, exampleFrag3] =
      [(0, "Add", "\x7b\"a\":1,\"b\":2\x7d")]) ∧
    (∀ (m : ToolsCallMap) (i : Nat) (idv : Option String) (tyv : Option Unit)
        (n s a : String),
      mapGet m i = some (n, s) →
      mapGet (processFragment m
          { index := i, id := idv, type := tyv,
            function := some { name := none, arguments := some a } }) i =
        some (n, s ++ a)) := by
  refine ⟨by decide, ?_⟩
  intro m i idv tyv n s a h
  exact mapGet_mapModify (fun p => (p.1, p.2 ++ a)) m i (n, s) h

/-- C4, witness: one concrete append onto an existing entry. -/
theorem accumulator_appends_fragments_witness :
    mapGet [(0, "Add", "x")] 0 = some ("Add", "x") ∧
    mapGet (processFragment [(0, "Add", "x")]
        { index := 0, id := none, type := none,
          function := some { name := none, arguments := some "y" } }) 0 =
      some ("Add", "xy") :=
  ⟨by decide, accumulator_appends_fragments.2 [(0, "Add", "x")] 0 none none "Add" "x" "y" (by decide)⟩

/-- C5, counterexample: a pending set whose first iterated entry has
unparsable arguments and whose second entry would dispatch fine — the
second entry is never attempted, contradicting the claim that siblings
are attempted independently. -/
theorem dispatch_abort_counterexample :
    dispatchEntries parseExample ToolRegistry.new [badPending, goodPending] =
      { attempted := [], outcome := some DispatchErr.argumentParseError } ∧
    parseExample goodPending.2.2 =
      some (JsonVal.obj [("a", JsonVal.num 1), ("b", JsonVal.num 2)]) ∧
    ¬ "Add" ∈ (dispatchEntries parseExample ToolRegistry.new [badPending, goodPending]).attempted :=
  ⟨by decide, rfl, by decide⟩

/-- C5 (amended): at end-of-stream dispatch, a failure to parse one
entry's accumulated arguments aborts the whole dispatch loop via `?`:
the entries before it (in iteration order) were attempted, the failing
entry and every entry after it are not, and the error propagates. -/
theorem dispatch_parse_failure_aborts_rest (parse : String → Option JsonVal)
    (reg : ToolRegistry) (pre : List (Nat × String × String)) (bad : Nat × String × String)
    (post : List (Nat × String × String))
    (hpre : ∀ e ∈ pre, ∃ v w, parse e.2.2 = some v ∧
      ToolRegistry.execute reg e.2.1 v = ExecOutcome.ok w)
    (hbad : parse bad.2.2 = none) :
    dispatchEntries parse reg (pre ++ bad :: post) =
      { attempted := pre.map (fun e => e.2.1),
        outcome := some DispatchErr.argumentParseError } := by
  induction pre with
  | nil =>
    obtain ⟨i, name, args⟩ := bad
    simp only [] at hbad
    simp [dispatchEntries, hbad]
  | cons e pre ih =>
    obtain ⟨i, name, args⟩ := e
    obtain ⟨v, w, hv, hw⟩ := hpre (i, name, args) (by simp)
    simp only [] at hv hw
    rw [List.cons_append]
    simp only [dispatchEntries, hv, hw]
    rw [ih (fun e he => hpre e (by simp [he]))]
    simp

/-- C5, witness: a parseable entry followed by an unparsable one — only
the first is attempted. -/
theorem dispatch_parse_failure_aborts_rest_witness :
    parseExample badPending.2.2 = none ∧
    dispatchEntries parseExample ToolRegistry.new [goodPending, badPending] =
      { attempted := ["Add"], outcome := some DispatchErr.argumentParseError } :=
  ⟨rfl, dispatch_parse_failure_aborts_rest parseExample ToolRegistry.new
    [goodPending] badPending []
    (by
      intro e he
      simp at he
      subst he
      exact ⟨JsonVal.obj [("a", JsonVal.num 1), ("b", JsonVal.num 2)],
        JsonVal.obj [("result", JsonVal.num 3)], rfl, rfl⟩)
    rfl⟩

/-- C6: `ToolRegistry::execute` with a name absent from the registry
does not return an error value — it panics with `Unknown Tool`
(`.expect`), never producing the `anyhow::Result` error channel. -/
theorem execute_unknown_tool_panics (reg : ToolRegistry) (name : String) (params : JsonVal)
    (h : registryGet reg name = none) :
    ToolRegistry.execute reg name params = ExecOutcome.panics "Unknown Tool" ∧
    ∀ e, ToolRegistry.execute reg name params ≠ ExecOutcome.error e := by
  simp [ToolRegistry.execute, h]

/-- C6, witness: the fresh registry holds no tool named `Nope`. -/
theorem execute_unknown_tool_panics_witness :
    registryGet ToolRegistry.new "Nope" = none ∧
    ToolRegistry.execute ToolRegistry.new "Nope" JsonVal.null =
      ExecOutcome.panics "Unknown Tool" :=
  ⟨rfl, (execute_unknown_tool_panics ToolRegistry.new "Nope" JsonVal.null rfl).1⟩

/-- C7, counterexample: dispatching `Add` with `{a:3, b:5}` does not
return the bare JSON value `8`. -/
theorem addTool_result_is_not_bare_eight :
    ToolRegistry.execute ToolRegistry.new "Add" addParamsJson ≠ ExecOutcome.ok (JsonVal.num 8) :=
  fun h => nomatch h

/-- C7 (amended): dispatching the registered `Add` tool with
`{a:3, b:5}` returns the JSON object `{"result": 8}` — the macro-generated
wrapper wraps the sum in a `result` field rather than returning `8`
directly. -/
theorem addTool_returns_result_object :
    ToolRegistry.execute ToolRegistry.new "Add" addParamsJson =
      ExecOutcome.ok (JsonVal.obj [("result", JsonVal.num 8)]) :=
  rfl

/-- C8: a response stream with zero deltas accumulates the empty answer
and the turn still appends an assistant message with empty content to
the Conversation State (rather than appending nothing). -/
theorem empty_stream_appends_empty_assistant :
    (∀ mgr : ContextManager, runStreamPhase mgr [] = Except.ok ("", mgr.add Role.assistant "")) ∧
    runStreamPhase (ContextManager.new 10) [] =
      Except.ok ("", some { contexts := [systemContext, { role := Role.assistant, message := "" }],
                            max_size := 10 }) :=
  ⟨fun _ => rfl, rfl⟩

/-- C10: while consuming a response stream, an `Err` element (a
transport-level error) is silently skipped — consumption continues with
the next element unchanged — while an `Ok` element whose payload fails to
deserialize into `RsChunkBody` aborts the turn with the parse error. -/
theorem stream_transport_err_skipped_parse_failure_aborts :
    (∀ (e : String) (rest : List StreamItem) (acc : TurnAcc),
        consumeStream acc (StreamItem.errItem e :: rest) = consumeStream acc rest) ∧
    (∀ (v : JsonVal) (rest : List StreamItem) (acc : TurnAcc),
        RsChunkBody.fromJson v = none →
        consumeStream acc (StreamItem.okItem v :: rest) = Except.error TurnErr.chunkParseError) := by
  constructor
  · intro e rest acc
    rfl
  · intro v rest acc h
    simp [consumeStream, h]

/-- C10, witness: the empty JSON object is missing `RsChunkBody`'s
required fields, so an `Ok` element carrying it aborts the turn. -/
theorem stream_transport_err_skipped_parse_failure_aborts_witness :
    RsChunkBody.fromJson (JsonVal.obj []) = none ∧
    consumeStream initAcc [StreamItem.okItem (JsonVal.obj [])] =
      Except.error TurnErr.chunkParseError :=
  ⟨rfl, stream_transport_err_skipped_parse_failure_aborts.2 (JsonVal.obj []) [] initAcc rfl⟩

/-- C9: in the shell-substitution transform, a command token whose
command exits with non-zero status is left verbatim in the rebuilt input,
a warning naming the command, exit code and stderr is emitted on the
diagnostic stream, and the transform returns normally (the turn
continues). -/
theorem failing_command_token_unchanged_with_warning (world : String → CmdOutcome)
    (pre post : List InputSegment) (cmd : String) (code : Option Int) (stderr : String)
    (hguard : ¬ tokenText cmd = systemPatternLiteral)
    (hfail : world cmd = CmdOutcome.failure code stderr) :
    SystemCommand.execute world (pre ++ InputSegment.token cmd :: post) =
      ((SystemCommand.execute world pre).1 ++ tokenText cmd ++
        (SystemCommand.execute world post).1,
       (SystemCommand.execute world pre).2 ++
         commandWarning cmd code stderr :: (SystemCommand.execute world post).2) := by
  induction pre with
  | nil =>
    simp [SystemCommand.execute, substToken, hguard, hfail]
  | cons seg pre ih =>
    cases seg with
    | lit s =>
      simp [SystemCommand.execute, ih, String.append_assoc]
    | token c =>
      simp [SystemCommand.execute, ih, String.append_assoc, List.append_assoc]

/-- C9, witness: one literal stretch followed by a failing command
token. -/
theorem failing_command_token_unchanged_with_warning_witness :
    ¬ tokenText "false" = systemPatternLiteral ∧
    failingWorld "false" = CmdOutcome.failure (some 1) "boom" ∧
    SystemCommand.execute failingWorld
        [InputSegment.lit "x ", InputSegment.token "false"] =
      ("x " ++ tokenText "false" ++ "", [commandWarning "false" (some 1) "boom"]) := by
  refine ⟨by decide, rfl, ?_⟩
  have h := failing_command_token_unchanged_with_warning failingWorld
    [InputSegment.lit "x "] [] "false" (some 1) "boom" (by decide) rfl
  simpa using h

end Rag
